import Mathlib

/-!
Shallow embedding of the "My Hacker Stories" tutorial application
(src/src/App.js, src/src/App.tsx and the unnamed earlier revision),
together with proofs about its reducer, sort controller, search history
and persistence helpers.

Conventions of the embedding:
* JavaScript arrays become `List`; object spread `{...state, f: v}` becomes
  structure update `{ state with f := v }`.
* `Array.prototype.filter` becomes `List.filter` (both keep, in order, the
  elements satisfying the predicate and allocate a fresh array/list).
* lodash `sortBy(list, field)` is a stable ascending sort by one field; a
  stable sort by a key is uniquely determined, so it is modelled by
  `List.insertionSort` (stable) over the non-strict field order.
* `Array.prototype.reverse` reverses IN PLACE and returns the same array
  object.  Where aliasing of the input array matters (the `SORTS.NONE`
  entry returns its argument itself), the model tracks an aliasing flag and
  the final contents of the caller's array explicitly.
* `localStorage` becomes an association list from keys to strings;
  the JavaScript expression `a || b`, applied to a string-or-null `a`,
  yields `b` exactly when `a` is `null` or the empty string.
-/

/-- A story item as fetched from the API (type `Story` in src/src/App.tsx). -/
structure Story where
  objectID : String
  url : String
  title : String
  author : String
  num_comments : Int
  points : Int
deriving DecidableEq

/-- Reducer state (type `StoriesState` in src/src/App.tsx):
`{ data, isLoading, isError }`. -/
structure StoriesState where
  data : List Story
  isLoading : Bool
  isError : Bool
deriving DecidableEq

/-- The four action kinds accepted by `storiesReducer`
(type `StoriesAction` in src/src/App.tsx). -/
inductive StoriesAction where
  | storiesFetchInit : StoriesAction
  | storiesFetchSuccess (payload : List Story) : StoriesAction
  | storiesFetchFailure : StoriesAction
  | removeStory (payload : Story) : StoriesAction

/-- `storiesReducer` from src/src/App.js lines 22-53 (identical in
src/src/App.tsx lines 65-96).  The `default: throw new Error()` branch is
unreachable here because `StoriesAction` has exactly the four recognized
kinds. -/
def storiesReducer (state : StoriesState) (action : StoriesAction) : StoriesState :=
  match action with
  | .storiesFetchInit =>
      { state with isLoading := true, isError := false }
  | .storiesFetchSuccess payload =>
      { state with isLoading := false, isError := false, data := payload }
  | .storiesFetchFailure =>
      { state with isLoading := false, isError := true }
  | .removeStory payload =>
      { state with
        data := state.data.filter (fun story => payload.objectID != story.objectID) }

/-- The initial reducer state passed to `React.useReducer`
(src/src/App.js line 69): `{ data: [], isLoading: false, isError: false }`. -/
def initialStoriesState : StoriesState :=
  { data := [], isLoading := false, isError := false }

/-- Running the reducer over a sequence of dispatched actions. -/
def runActions (s : StoriesState) (l : List StoriesAction) : StoriesState :=
  l.foldl storiesReducer s

/-- C1: FETCH_INIT sets isLoading and clears isError leaving data unchanged;
FETCH_SUCCESS clears both flags and replaces data with the payload;
FETCH_FAILURE clears isLoading, sets isError and leaves data unchanged. -/
theorem storiesReducer_fetch_transitions (s : StoriesState) (payload : List Story) :
    (storiesReducer s .storiesFetchInit).isLoading = true ∧
    (storiesReducer s .storiesFetchInit).isError = false ∧
    (storiesReducer s .storiesFetchInit).data = s.data ∧
    (storiesReducer s (.storiesFetchSuccess payload)).isLoading = false ∧
    (storiesReducer s (.storiesFetchSuccess payload)).isError = false ∧
    (storiesReducer s (.storiesFetchSuccess payload)).data = payload ∧
    (storiesReducer s .storiesFetchFailure).isLoading = false ∧
    (storiesReducer s .storiesFetchFailure).isError = true ∧
    (storiesReducer s .storiesFetchFailure).data = s.data := by
  simp [storiesReducer]

/-- C2: REMOVE_STORY(item) removes exactly the entries whose objectID equals
item's objectID: the result contains no matching entry, is a sublist of the
old data (hence keeps relative order), retains every non-matching entry,
leaves the flags unchanged, and is a no-op when no entry matches. -/
theorem storiesReducer_removeStory_spec (s : StoriesState) (item : Story) :
    (∀ st ∈ (storiesReducer s (.removeStory item)).data, st.objectID ≠ item.objectID) ∧
    List.Sublist (storiesReducer s (.removeStory item)).data s.data ∧
    (∀ st ∈ s.data, st.objectID ≠ item.objectID →
      st ∈ (storiesReducer s (.removeStory item)).data) ∧
    (storiesReducer s (.removeStory item)).isLoading = s.isLoading ∧
    (storiesReducer s (.removeStory item)).isError = s.isError ∧
    ((∀ st ∈ s.data, st.objectID ≠ item.objectID) →
      (storiesReducer s (.removeStory item)).data = s.data) := by
  refine ⟨?_, ?_, ?_, rfl, rfl, ?_⟩
  · intro st hst
    have := List.of_mem_filter hst
    simpa [bne_iff_ne, ne_comm] using this
  · exact List.filter_sublist _
  · intro st hst hne
    exact List.mem_filter.2 ⟨hst, by simpa [bne_iff_ne] using hne.symm⟩
  · intro h
    apply List.filter_eq_self.2
    intro st hst
    simpa [bne_iff_ne] using (h st hst).symm

/-- Sample story used in concrete witnesses (Scenario A of the spec). -/
def storyA : Story := ⟨"1", "u", "A", "x", 1, 1⟩

/-- A second sample story, distinct from `storyA`. -/
def storyB : Story := ⟨"2", "v", "B", "y", 2, 2⟩

/-- A third sample story: same num_comments and points as `storyA`
but a different identity. -/
def storyC : Story := ⟨"3", "w", "C", "z", 1, 1⟩

/-- A sample reducer state holding exactly `storyA`. -/
def stateA : StoriesState := ⟨[storyA], false, false⟩

/-- Witness for C2 at a concrete state and item: removing an absent
objectID is a no-op. -/
theorem storiesReducer_removeStory_spec_witness :
    stateA.data = [storyA] ∧
    (storiesReducer stateA (.removeStory storyB)).data = [storyA] := by
  refine ⟨rfl, ?_⟩
  exact (storiesReducer_removeStory_spec stateA storyB).2.2.2.2.2 (by decide)

/-- Helper for C8: every single reducer step starting from a state whose
flags are not both set yields a state whose flags are not both set. -/
theorem storiesReducer_flags_step (s : StoriesState) (a : StoriesAction)
    (h : (s.isLoading && s.isError) = false) :
    ((storiesReducer s a).isLoading && (storiesReducer s a).isError) = false := by
  cases a <;> simp_all [storiesReducer]

/-- C8: from the initial state, after any sequence of the four action kinds,
isLoading and isError are never both true; and data is left unchanged by
FETCH_INIT and FETCH_FAILURE, fully replaced by FETCH_SUCCESS, and only
filtered by REMOVE_STORY. -/
theorem storiesState_invariant (l : List StoriesAction) (s : StoriesState)
    (p : List Story) (i : Story) :
    ((runActions initialStoriesState l).isLoading &&
      (runActions initialStoriesState l).isError) = false ∧
    (storiesReducer s .storiesFetchInit).data = s.data ∧
    (storiesReducer s .storiesFetchFailure).data = s.data ∧
    (storiesReducer s (.storiesFetchSuccess p)).data = p ∧
    (storiesReducer s (.removeStory i)).data
      = s.data.filter (fun story => i.objectID != story.objectID) := by
  refine ⟨?_, rfl, rfl, rfl, rfl⟩
  have main : ∀ (acts : List StoriesAction) (st : StoriesState),
      (st.isLoading && st.isError) = false →
      ((runActions st acts).isLoading && (runActions st acts).isError) = false := by
    intro acts
    induction acts with
    | nil => intro st h; exact h
    | cons a rest ih =>
        intro st h
        exact ih (storiesReducer st a) (storiesReducer_flags_step st a h)
  exact main l initialStoriesState rfl

/-- The five sort keys of the Sort Controller (keys of the `SORTS`
dictionary, src/src/App.js lines 191-197). -/
inductive SortKey where
  | NONE : SortKey
  | TITLE : SortKey
  | AUTHOR : SortKey
  | COMMENT : SortKey
  | POINT : SortKey
deriving DecidableEq

/-- Sort controller state (src/src/App.js line 201):
`{ sortKey: 'NONE', isReverse: false }` initially. -/
structure SortState where
  sortKey : SortKey
  isReverse : Bool
deriving DecidableEq

/-- `handleSort` from src/src/App.js lines 203-206:
`const isReverse = sort.sortKey === sortKey && !sort.isReverse;
setSort({ sortKey: sortKey, isReverse: isReverse });` -/
def handleSort (sort : SortState) (sortKey : SortKey) : SortState :=
  { sortKey := sortKey, isReverse := sort.sortKey == sortKey && !sort.isReverse }

/-- C3: selecting the active key again keeps the key and toggles the reverse
flag; selecting a different key switches to it and resets reverse to false. -/
theorem handleSort_spec (sort : SortState) (k : SortKey) :
    (sort.sortKey = k → handleSort sort k = ⟨k, !sort.isReverse⟩) ∧
    (sort.sortKey ≠ k → handleSort sort k = ⟨k, false⟩) := by
  constructor
  · intro h
    simp [handleSort, h]
  · intro h
    simp [handleSort, h]

/-- Witness for C3: from `{TITLE, false}`, selecting TITLE toggles reverse on,
and selecting AUTHOR switches key with reverse off. -/
theorem handleSort_spec_witness :
    handleSort ⟨SortKey.TITLE, false⟩ SortKey.TITLE = ⟨SortKey.TITLE, true⟩ ∧
    handleSort ⟨SortKey.TITLE, false⟩ SortKey.AUTHOR = ⟨SortKey.AUTHOR, false⟩ := by
  constructor
  · exact (handleSort_spec ⟨SortKey.TITLE, false⟩ SortKey.TITLE).1 rfl
  · exact (handleSort_spec ⟨SortKey.TITLE, false⟩ SortKey.AUTHOR).2 (by decide)

/-- The non-strict one-field order used by lodash `sortBy(list, field)`. -/
def fieldLe {β : Type} [LinearOrder β] (f : Story → β) (a b : Story) : Prop :=
  f a ≤ f b

instance {β : Type} [LinearOrder β] (f : Story → β) : DecidableRel (fieldLe f) :=
  fun a b => inferInstanceAs (Decidable (f a ≤ f b))

/-- lodash `sortBy(list, field)`: a stable ascending sort of `list` by the
given field, returning a fresh array.  A stable sort by a fixed key order is
uniquely determined, so it is modelled by the stable `List.insertionSort`. -/
def sortBy {β : Type} [LinearOrder β] (f : Story → β) (list : List Story) : List Story :=
  List.insertionSort (fieldLe f) list

/-- The `SORTS` dictionary (src/src/App.js lines 191-197).  Besides the
resulting array, the model records whether that array IS the caller's input
array (`true` only for `NONE`, whose entry is `list => list`); lodash
`sortBy` always allocates a fresh array, and the `.reverse()` inside the
`COMMENT`/`POINT` entries acts on that fresh array only. -/
def SORTS (k : SortKey) (list : List Story) : List Story × Bool :=
  match k with
  | .NONE => (list, true)
  | .TITLE => (sortBy Story.title list, false)
  | .AUTHOR => (sortBy Story.author list, false)
  | .COMMENT => ((sortBy Story.num_comments list).reverse, false)
  | .POINT => ((sortBy Story.points list).reverse, false)

/-- `const sortedList = sort.isReverse ? sortFunction(list).reverse() :
sortFunction(list);` (src/src/App.js lines 210-211).  JavaScript
`Array.prototype.reverse` reverses IN PLACE and returns the same array, so
when the array returned by the sort function is the input array itself
(the `NONE` entry) and `isReverse` holds, the input array is mutated.
First component: the derived view; second component: the contents of the
caller's `list` array after the computation. -/
def sortedList (sort : SortState) (list : List Story) : List Story × List Story :=
  let r := SORTS sort.sortKey list
  if sort.isReverse then (r.1.reverse, if r.2 then r.1.reverse else list)
  else (r.1, list)

/-- C4 counterexample: with sort state `{NONE, isReverse: true}` the derived
view is computed by calling `.reverse()` on the input array itself, which
mutates it: afterwards the input array no longer holds its original
contents. -/
theorem sortedList_mutation_counterexample :
    (sortedList ⟨SortKey.NONE, true⟩ [storyA, storyB]).2 ≠ [storyA, storyB] := by
  decide

/-- C4 amended: for every sort state except `{NONE, isReverse: true}`
(a combination the Sort Controller never reaches), computing the derived
view leaves the input list unchanged. -/
theorem sortedList_no_mutation_amended (s : SortState) (L : List Story)
    (h : s.sortKey = SortKey.NONE → s.isReverse = false) :
    (sortedList s L).2 = L := by
  rcases s with ⟨k, rev⟩
  cases k <;> cases rev <;> simp_all [sortedList, SORTS]

/-- Witness for the amended C4 at a concrete sort state and list. -/
theorem sortedList_no_mutation_amended_witness :
    (sortedList ⟨SortKey.TITLE, true⟩ [storyA, storyB]).2 = [storyA, storyB] :=
  sortedList_no_mutation_amended ⟨SortKey.TITLE, true⟩ [storyA, storyB] (by decide)

/-- The intended pairwise order of the derived view for a sort state
(spec section 4.3: NONE = identity order, TITLE/AUTHOR ascending
lexicographic, COMMENT/POINT descending numeric; `isReverse` inverts). -/
def keyOrder (s : SortState) (a b : Story) : Prop :=
  match s.sortKey, s.isReverse with
  | .NONE, _ => True
  | .TITLE, false => a.title ≤ b.title
  | .TITLE, true => b.title ≤ a.title
  | .AUTHOR, false => a.author ≤ b.author
  | .AUTHOR, true => b.author ≤ a.author
  | .COMMENT, false => b.num_comments ≤ a.num_comments
  | .COMMENT, true => a.num_comments ≤ b.num_comments
  | .POINT, false => b.points ≤ a.points
  | .POINT, true => a.points ≤ b.points

instance (s : SortState) : DecidableRel (keyOrder s) :=
  match s with
  | ⟨.NONE, _⟩ => fun _ _ => .isTrue trivial
  | ⟨.TITLE, false⟩ => fun a b => inferInstanceAs (Decidable (a.title ≤ b.title))
  | ⟨.TITLE, true⟩ => fun a b => inferInstanceAs (Decidable (b.title ≤ a.title))
  | ⟨.AUTHOR, false⟩ => fun a b => inferInstanceAs (Decidable (a.author ≤ b.author))
  | ⟨.AUTHOR, true⟩ => fun a b => inferInstanceAs (Decidable (b.author ≤ a.author))
  | ⟨.COMMENT, false⟩ => fun a b => inferInstanceAs (Decidable (b.num_comments ≤ a.num_comments))
  | ⟨.COMMENT, true⟩ => fun a b => inferInstanceAs (Decidable (a.num_comments ≤ b.num_comments))
  | ⟨.POINT, false⟩ => fun a b => inferInstanceAs (Decidable (b.points ≤ a.points))
  | ⟨.POINT, true⟩ => fun a b => inferInstanceAs (Decidable (a.points ≤ b.points))

/-- "Already sorted by the same key and direction": the list is in the
derived view's intended order. -/
def sortedBy (s : SortState) (L : List Story) : Prop :=
  L.Pairwise (keyOrder s)

instance (s : SortState) (L : List Story) : Decidable (sortedBy s L) :=
  inferInstanceAs (Decidable (L.Pairwise (keyOrder s)))

/-- Strict variant of `keyOrder`: adjacent entries are strictly ordered on
the sort field (no ties). -/
def strictKeyOrder (s : SortState) (a b : Story) : Prop :=
  match s.sortKey, s.isReverse with
  | .NONE, _ => True
  | .TITLE, false => a.title < b.title
  | .TITLE, true => b.title < a.title
  | .AUTHOR, false => a.author < b.author
  | .AUTHOR, true => b.author < a.author
  | .COMMENT, false => b.num_comments < a.num_comments
  | .COMMENT, true => a.num_comments < b.num_comments
  | .POINT, false => b.points < a.points
  | .POINT, true => a.points < b.points

instance (s : SortState) : DecidableRel (strictKeyOrder s) :=
  match s with
  | ⟨.NONE, _⟩ => fun _ _ => .isTrue trivial
  | ⟨.TITLE, false⟩ => fun a b => inferInstanceAs (Decidable (a.title < b.title))
  | ⟨.TITLE, true⟩ => fun a b => inferInstanceAs (Decidable (b.title < a.title))
  | ⟨.AUTHOR, false⟩ => fun a b => inferInstanceAs (Decidable (a.author < b.author))
  | ⟨.AUTHOR, true⟩ => fun a b => inferInstanceAs (Decidable (b.author < a.author))
  | ⟨.COMMENT, false⟩ => fun a b => inferInstanceAs (Decidable (b.num_comments < a.num_comments))
  | ⟨.COMMENT, true⟩ => fun a b => inferInstanceAs (Decidable (a.num_comments < b.num_comments))
  | ⟨.POINT, false⟩ => fun a b => inferInstanceAs (Decidable (b.points < a.points))
  | ⟨.POINT, true⟩ => fun a b => inferInstanceAs (Decidable (a.points < b.points))

/-- Sorted with no ties in the sort field; for `NONE` the direction must not
be reversed (there is no field whose distinctness could constrain it). -/
def strictSortedBy (s : SortState) (L : List Story) : Prop :=
  (s.sortKey = SortKey.NONE → s.isReverse = false) ∧ L.Pairwise (strictKeyOrder s)

instance (s : SortState) (L : List Story) : Decidable (strictSortedBy s L) :=
  inferInstanceAs
    (Decidable ((s.sortKey = SortKey.NONE → s.isReverse = false) ∧
      L.Pairwise (strictKeyOrder s)))

/-- Inserting an element that is strictly above everything in the list puts
it at the end. -/
theorem orderedInsert_last {β : Type} [LinearOrder β] (f : Story → β) (a : Story)
    (M : List Story) (h : ∀ b ∈ M, ¬ fieldLe f a b) :
    List.orderedInsert (fieldLe f) a M = M ++ [a] := by
  induction M with
  | nil => rfl
  | cons b M ih =>
      have hb : ¬ fieldLe f a b := h b (by simp)
      simp only [List.orderedInsert, if_neg hb, List.cons_append]
      rw [ih (fun c hc => h c (by simp [hc]))]

/-- A stable ascending sort leaves a strictly ascending list unchanged. -/
theorem sortBy_of_pairwise_lt {β : Type} [LinearOrder β] (f : Story → β)
    (L : List Story) (h : L.Pairwise (fun a b => f a < f b)) :
    sortBy f L = L := by
  have hs : L.Sorted (fieldLe f) := h.imp (fun hab => le_of_lt hab)
  exact hs.insertionSort_eq

/-- A stable ascending sort maps a strictly descending list to its
reversal. -/
theorem sortBy_of_pairwise_gt {β : Type} [LinearOrder β] (f : Story → β)
    (L : List Story) (h : L.Pairwise (fun a b => f b < f a)) :
    sortBy f L = L.reverse := by
  induction L with
  | nil => rfl
  | cons a L ih =>
      rw [List.pairwise_cons] at h
      have hins : List.orderedInsert (fieldLe f) a L.reverse = L.reverse ++ [a] :=
        orderedInsert_last f a L.reverse
          (fun b hb => not_le_of_lt (h.1 b (List.mem_reverse.1 hb)))
      calc sortBy f (a :: L) = List.orderedInsert (fieldLe f) a (sortBy f L) := rfl
        _ = List.orderedInsert (fieldLe f) a L.reverse := by rw [ih h.2]
        _ = L.reverse ++ [a] := hins
        _ = (a :: L).reverse := (List.reverse_cons a L).symm

/-- C9 counterexample: with two stories tied on `num_comments`, the list
`[storyA, storyC]` is already sorted for `{COMMENT, isReverse: false}`
(descending by comments), yet the derived view is `[storyC, storyA]` —
the ascending stable sort followed by `.reverse()` flips tied entries. -/
theorem sorts_idempotent_counterexample :
    sortedBy ⟨SortKey.COMMENT, false⟩ [storyA, storyC] ∧
    (sortedList ⟨SortKey.COMMENT, false⟩ [storyA, storyC]).1 ≠ [storyA, storyC] := by
  constructor
  · decide
  · decide

/-- C9 amended: the sort functions are idempotent on an already-sorted list
of the same key and direction provided no two entries are tied on the sort
field (and, for `NONE`, provided the direction is not reversed). -/
theorem sorts_idempotent_amended (s : SortState) (L : List Story)
    (h : strictSortedBy s L) : (sortedList s L).1 = L := by
  obtain ⟨hNone, hp⟩ := h
  rcases s with ⟨k, rev⟩
  cases k with
  | NONE =>
      cases rev with
      | false => simp [sortedList, SORTS]
      | true => exact absurd (hNone rfl) (by simp)
  | TITLE =>
      cases rev with
      | false =>
          have hp' : L.Pairwise (fun a b : Story => a.title < b.title) := hp
          have hL : sortBy Story.title L = L := sortBy_of_pairwise_lt Story.title L hp'
          simp [sortedList, SORTS, hL]
      | true =>
          have hp' : L.Pairwise (fun a b : Story => b.title < a.title) := hp
          have hL : sortBy Story.title L = L.reverse := sortBy_of_pairwise_gt Story.title L hp'
          simp [sortedList, SORTS, hL]
  | AUTHOR =>
      cases rev with
      | false =>
          have hp' : L.Pairwise (fun a b : Story => a.author < b.author) := hp
          have hL : sortBy Story.author L = L := sortBy_of_pairwise_lt Story.author L hp'
          simp [sortedList, SORTS, hL]
      | true =>
          have hp' : L.Pairwise (fun a b : Story => b.author < a.author) := hp
          have hL : sortBy Story.author L = L.reverse := sortBy_of_pairwise_gt Story.author L hp'
          simp [sortedList, SORTS, hL]
  | COMMENT =>
      cases rev with
      | false =>
          have hp' : L.Pairwise (fun a b : Story => b.num_comments < a.num_comments) := hp
          have hL : sortBy Story.num_comments L = L.reverse :=
            sortBy_of_pairwise_gt Story.num_comments L hp'
          simp [sortedList, SORTS, hL]
      | true =>
          have hp' : L.Pairwise (fun a b : Story => a.num_comments < b.num_comments) := hp
          have hL : sortBy Story.num_comments L = L :=
            sortBy_of_pairwise_lt Story.num_comments L hp'
          simp [sortedList, SORTS, hL]
  | POINT =>
      cases rev with
      | false =>
          have hp' : L.Pairwise (fun a b : Story => b.points < a.points) := hp
          have hL : sortBy Story.points L = L.reverse :=
            sortBy_of_pairwise_gt Story.points L hp'
          simp [sortedList, SORTS, hL]
      | true =>
          have hp' : L.Pairwise (fun a b : Story => a.points < b.points) := hp
          have hL : sortBy Story.points L = L :=
            sortBy_of_pairwise_lt Story.points L hp'
          simp [sortedList, SORTS, hL]

/-- Witness for the amended C9: `[storyB, storyA]` is strictly descending by
`num_comments` (2 over 1) and the `{COMMENT, false}` view returns it
unchanged. -/
theorem sorts_idempotent_amended_witness :
    (sortedList ⟨SortKey.COMMENT, false⟩ [storyB, storyA]).1 = [storyB, storyA] :=
  sorts_idempotent_amended ⟨SortKey.COMMENT, false⟩ [storyB, storyA] (by decide)

/-- `const API_ENDPOINT = 'https://hn.algolia.com/api/v1/search?query=';`
(src/src/App.js line 8). -/
def API_ENDPOINT : String := "https://hn.algolia.com/api/v1/search?query="

/-- `const getUrl = searchTerm => API_ENDPOINT + searchTerm`
(src/src/App.js line 59, template literal). -/
def getUrl (searchTerm : String) : String := API_ENDPOINT ++ searchTerm

/-- Character-level core of JavaScript `String.prototype.replace` with a
string pattern: scan left to right and replace only the FIRST occurrence of
`pat` by `repl`; if `pat` does not occur, the string is unchanged. -/
def replaceFirstAux (pat repl : List Char) : List Char → List Char
  | [] => []
  | c :: cs =>
      if pat.isPrefixOf (c :: cs) then repl ++ (c :: cs).drop pat.length
      else c :: replaceFirstAux pat repl cs

/-- JavaScript `s.replace(pat, repl)` for a string pattern `pat`. -/
def replaceFirst (s pat repl : String) : String :=
  ⟨replaceFirstAux pat.data repl.data s.data⟩

/-- `const extractSearchTerm = url => url.replace(API_ENDPOINT, '');`
(src/src/App.js line 55). -/
def extractSearchTerm (url : String) : String :=
  replaceFirst url API_ENDPOINT ""

/-- `const getLastSearches = urls => urls.slice(-5).map(extractSearchTerm);`
(src/src/App.js line 57).  `urls.slice(-5)` keeps the last five elements
(all of them when there are fewer). -/
def getLastSearches (urls : List String) : List String :=
  (urls.drop (urls.length - 5)).map extractSearchTerm

/-- Unfolding `replaceFirstAux` at a position where the pattern matches. -/
theorem replaceFirstAux_cons_pos (pat repl : List Char) (c : Char) (cs : List Char)
    (h : pat.isPrefixOf (c :: cs) = true) :
    replaceFirstAux pat repl (c :: cs) = repl ++ (c :: cs).drop pat.length := by
  simp only [replaceFirstAux, h, if_true]

/-- When the scanned string starts with the (nonempty) pattern, the match is
found at position zero and exactly that occurrence is replaced. -/
theorem replaceFirstAux_strip (p repl q : List Char) (hp : p ≠ []) :
    replaceFirstAux p repl (p ++ q) = repl ++ q := by
  cases p with
  | nil => exact absurd rfl hp
  | cons c cs =>
      have hpre : (c :: cs).isPrefixOf (c :: (cs ++ q)) = true := by
        rw [← List.cons_append]
        exact List.isPrefixOf_iff_prefix.2 (List.prefix_append _ _)
      rw [List.cons_append, replaceFirstAux_cons_pos (c :: cs) repl c (cs ++ q) hpre,
        ← List.cons_append, List.drop_left]

/-- Inverting the URL-construction template: stripping the endpoint from a
constructed URL recovers the search term. -/
theorem extractSearchTerm_getUrl (t : String) : extractSearchTerm (getUrl t) = t := by
  apply String.ext
  show replaceFirstAux API_ENDPOINT.data [] (API_ENDPOINT ++ t).data = t.data
  rw [String.data_append]
  exact replaceFirstAux_strip API_ENDPOINT.data [] t.data (by decide)

/-- C5 counterexample: the derived history is NOT deduplicated — submitting
the same term twice yields that term twice among the last-search buttons. -/
theorem getLastSearches_distinct_counterexample :
    getLastSearches [getUrl "React", getUrl "React"] = ["React", "React"] ∧
    ¬ (getLastSearches [getUrl "React", getUrl "React"]).Nodup := by
  refine ⟨?_, ?_⟩
  · rfl
  · intro h
    rw [show getLastSearches [getUrl "React", getUrl "React"] = ["React", "React"] from rfl] at h
    simp at h

/-- C5 amended: on any sequence of issued URLs (each built by `getUrl`),
the derived history is the last at most five search terms — duplicates
included — in most-recent-last order. -/
theorem getLastSearches_last_terms (terms : List String) :
    getLastSearches (terms.map getUrl) = terms.drop (terms.length - 5) ∧
    (getLastSearches (terms.map getUrl)).length ≤ 5 := by
  have h1 : getLastSearches (terms.map getUrl) = terms.drop (terms.length - 5) := by
    unfold getLastSearches
    rw [List.length_map, ← List.map_drop, List.map_map]
    calc (terms.drop (terms.length - 5)).map (extractSearchTerm ∘ getUrl)
        = (terms.drop (terms.length - 5)).map id := by
          apply List.map_congr_left
          intro a _
          exact extractSearchTerm_getUrl a
      _ = terms.drop (terms.length - 5) := List.map_id _
  refine ⟨h1, ?_⟩
  rw [h1, List.length_drop]
  omega

/-- The App-level state relevant to search submission: the controlled input
value and the list of issued query URLs (src/src/App.js lines 63-65). -/
structure AppState where
  searchTerm : String
  urls : List String
deriving DecidableEq

/-- `const handleSearch = searchTerm => { const url = getUrl(searchTerm);
setUrls(urls.concat(url)); };` (src/src/App.js lines 109-112):
`Array.prototype.concat` returns a fresh array consisting of the old
elements followed by the new one. -/
def handleSearch (st : AppState) (searchTerm : String) : AppState :=
  { st with urls := st.urls ++ [getUrl searchTerm] }

/-- `handleSearchSubmit` (src/src/App.js lines 100-103) forwards the current
input value to `handleSearch`. -/
def handleSearchSubmit (st : AppState) : AppState :=
  handleSearch st st.searchTerm

/-- `const handleLastSearch = url => { handleSearch(searchTerm); };`
(src/src/App.js lines 105-107).  The parameter `url` is NOT used: the body
reads the enclosing component's current `searchTerm` state, not the clicked
historical term. -/
def handleLastSearch (st : AppState) (url : String) : AppState :=
  handleSearch st st.searchTerm

/-- C10: the issued-URL list is append-only — a search submission keeps the
old URLs in order and appends exactly the URL built from the submitted term;
the form handler submits the current input value. -/
theorem handleSearch_append_only (st : AppState) (t : String) :
    (handleSearch st t).urls = st.urls ++ [getUrl t] ∧
    (handleSearch st t).searchTerm = st.searchTerm ∧
    (handleSearchSubmit st).urls = st.urls ++ [getUrl st.searchTerm] :=
  ⟨rfl, rfl, rfl⟩

/-- C6 failing-input evaluation: with current input "React", clicking the
history button for "Redux" appends the URL for "React" — the clicked term is
ignored, contradicting the spec's "re-issues a search using that term". -/
theorem handleLastSearch_uses_current_term :
    (handleLastSearch ⟨"React", [getUrl "React", getUrl "Redux"]⟩ "Redux").urls
      = [getUrl "React", getUrl "Redux", getUrl "React"] ∧
    getUrl "React" ≠ getUrl "Redux" :=
  ⟨rfl, by decide⟩

/-- Modelled from the spec: the browser key-value store (`localStorage`) is
outside the repository; spec section 6 gives its contract as
`get(key) -> string|absent`, `set(key, value)`.  Modelled as an association
list from keys to stored strings. -/
abbrev KVStore := List (String × String)

/-- Modelled from the spec: `localStorage.getItem(key)` — the stored string,
or absent. -/
def getItem : KVStore → String → Option String
  | [], _ => none
  | p :: rest, key => if p.1 == key then some p.2 else getItem rest key

/-- Modelled from the spec: `localStorage.setItem(key, value)` — stores
`value` under `key`, replacing any previous binding. -/
def setItem : KVStore → String → String → KVStore
  | [], key, value => [(key, value)]
  | p :: rest, key, value =>
      if p.1 == key then (key, value) :: rest else p :: setItem rest key value

/-- JavaScript `a || b` where `a` is a string-or-null: yields `b` exactly
when `a` is `null` or the empty string (the only falsy string). -/
def jsOr (x : Option String) (dflt : String) : String :=
  match x with
  | none => dflt
  | some s => if s = "" then dflt else s

/-- The value held by `useSemiPersistentState` on initialization
(src/src/App.js lines 10-13): `localStorage.getItem(key) || initialState`. -/
def useSemiPersistentStateValue (store : KVStore) (key initialState : String) : String :=
  jsOr (getItem store key) initialState

/-- The store after the `React.useEffect` of `useSemiPersistentState`
(src/src/App.js lines 15-17) runs for a changed value:
`localStorage.setItem(key, value)`. -/
def useSemiPersistentStateEffect (store : KVStore) (key value : String) : KVStore :=
  setItem store key value

/-- Writing a key then reading it back yields the written value. -/
theorem getItem_setItem (store : KVStore) (key v : String) :
    getItem (setItem store key v) key = some v := by
  induction store with
  | nil => simp [setItem, getItem]
  | cons p rest ih =>
      by_cases h : p.1 == key
      · simp [setItem, getItem, h]
      · simp only [setItem, h, if_false, Bool.false_eq_true]
        simp only [getItem, h, if_false, Bool.false_eq_true]
        exact ih

/-- C7 counterexample: the key is present with the stored string `""`, yet
initialization yields the caller-supplied default (JavaScript `||` treats
the empty string as falsy), so the held value differs from the stored one. -/
theorem useSemiPersistentState_counterexample :
    getItem [("search", "")] "search" = some "" ∧
    useSemiPersistentStateValue [("search", "")] "search" "React" = "React" ∧
    ("React" : String) ≠ "" := by
  refine ⟨rfl, rfl, by decide⟩

/-- C7 amended: on initialization the held value is the stored string when
one is present and nonempty, and the caller-supplied default when the key is
absent OR holds the empty string; after every change the store holds the new
value under the same key. -/
theorem useSemiPersistentState_spec_amended (store : KVStore) (key d s v : String) :
    (getItem store key = none → useSemiPersistentStateValue store key d = d) ∧
    (getItem store key = some "" → useSemiPersistentStateValue store key d = d) ∧
    (getItem store key = some s → s ≠ "" →
      useSemiPersistentStateValue store key d = s) ∧
    getItem (useSemiPersistentStateEffect store key v) key = some v := by
  refine ⟨?_, ?_, ?_, getItem_setItem store key v⟩
  · intro h
    simp [useSemiPersistentStateValue, h, jsOr]
  · intro h
    simp [useSemiPersistentStateValue, h, jsOr]
  · intro h hs
    simp [useSemiPersistentStateValue, h, jsOr, hs]

/-- Witness for the amended C7 at a concrete store, key and values. -/
theorem useSemiPersistentState_spec_amended_witness :
    useSemiPersistentStateValue [("search", "Redux")] "search" "React" = "Redux" ∧
    getItem (useSemiPersistentStateEffect [("search", "Redux")] "search" "Vue") "search"
      = some "Vue" := by
  constructor
  · exact (useSemiPersistentState_spec_amended [("search", "Redux")] "search" "React"
      "Redux" "Vue").2.2.1 (by decide) (by decide)
  · exact (useSemiPersistentState_spec_amended [("search", "Redux")] "search" "React"
      "Redux" "Vue").2.2.2
